import Mathlib

/- Shallow embedding of the boids simulation kernel of src/main.rs (a
   bevy/glam based flocking simulation).  The f32 values of the program are
   modelled as real numbers; every place where the behaviour of the Rust
   code depends on NaN propagation (comparisons with NaN are false, the
   `is_nan` guard of `diff_as_quat`) is modelled explicitly and documented
   at the corresponding definition.  The calls to `rand::random::<bool>()`
   are modelled by an explicit stream of coins `g : Nat -> Bool` together
   with a counter that is threaded through the computation exactly where
   the Rust code draws a random value, and `rng.gen::<f32>()` by a stream
   of reals. -/

open Classical

noncomputable section

namespace Boids

/-- 3-component vector (glam `Vec3`).  The simulation keeps 2D positions in
the x,y components, with z created as 0. -/
@[ext] structure Vec3 where
  x : ℝ
  y : ℝ
  z : ℝ

/-- glam `Vec3::ZERO`. -/
def Vec3.zero : Vec3 := ⟨0, 0, 0⟩

/-- Componentwise addition (glam `Vec3 + Vec3`). -/
def Vec3.add (u v : Vec3) : Vec3 := ⟨u.x + v.x, u.y + v.y, u.z + v.z⟩

/-- Componentwise subtraction (glam `Vec3 - Vec3`). -/
def Vec3.sub (u v : Vec3) : Vec3 := ⟨u.x - v.x, u.y - v.y, u.z - v.z⟩

/-- Multiplication of a vector by an f32 scalar (glam `Vec3 * f32`). -/
def Vec3.smul (s : ℝ) (v : Vec3) : Vec3 := ⟨v.x * s, v.y * s, v.z * s⟩

/-- Componentwise division of a vector by an f32 scalar (glam `Vec3 / f32`). -/
def Vec3.divScalar (v : Vec3) (s : ℝ) : Vec3 := ⟨v.x / s, v.y / s, v.z / s⟩

/-- glam `Vec3::dot`. -/
def Vec3.dot (u v : Vec3) : ℝ := u.x * v.x + u.y * v.y + u.z * v.z

/-- glam `Vec3::cross`. -/
def Vec3.cross (u v : Vec3) : Vec3 :=
  ⟨u.y * v.z - u.z * v.y, u.z * v.x - u.x * v.z, u.x * v.y - u.y * v.x⟩

/-- glam `Vec3::length_squared`. -/
def Vec3.length_squared (v : Vec3) : ℝ := Vec3.dot v v

/-- glam `Vec3::length`. -/
def Vec3.length (v : Vec3) : ℝ := Real.sqrt (Vec3.length_squared v)

/-- glam `Vec3::normalize`: `self * self.length().recip()`.  For the zero
vector the floats produce NaN components; over the reals the inverse of 0
is 0, so the model yields the zero vector there.  The only call site,
`diff_as_quat`, guards exactly this degenerate case, see `diffDegenerate`. -/
def Vec3.normalize (v : Vec3) : Vec3 := Vec3.smul (Vec3.length v)⁻¹ v

/-- glam `Vec3::angle_between`:
`acos_approx(self.dot(rhs) / sqrt(self.length_squared() * rhs.length_squared()))`.
glam clamps the argument of acos to [-1,1], which `Real.arccos` also does.
When one of the vectors is zero the float computation is 0/0 = NaN; the
call sites model that case separately (see `angleLt` and `diffDegenerate`). -/
def Vec3.angle_between (u v : Vec3) : ℝ :=
  Real.arccos (Vec3.dot u v / Real.sqrt (Vec3.length_squared u * Vec3.length_squared v))

/-- Quaternion (glam `Quat`), stored as x,y,z,w. -/
@[ext] structure Quat where
  x : ℝ
  y : ℝ
  z : ℝ
  w : ℝ

/-- glam `Quat::IDENTITY`. -/
def Quat.IDENTITY : Quat := ⟨0, 0, 0, 1⟩

/-- glam `Quat::ZERO`, the starting value of the `Sum` iterator fold. -/
def Quat.ZERO : Quat := ⟨0, 0, 0, 0⟩

/-- Componentwise addition (glam `Quat + Quat`). -/
def Quat.add (p q : Quat) : Quat := ⟨p.x + q.x, p.y + q.y, p.z + q.z, p.w + q.w⟩

/-- Multiplication of a quaternion by an f32 scalar (glam `Quat * f32`,
componentwise). -/
def Quat.smul (s : ℝ) (q : Quat) : Quat := ⟨q.x * s, q.y * s, q.z * s, q.w * s⟩

/-- Componentwise division of a quaternion by an f32 scalar
(glam `Quat / f32`). -/
def Quat.divScalar (q : Quat) (s : ℝ) : Quat := ⟨q.x / s, q.y / s, q.z / s, q.w / s⟩

/-- glam `Quat::length_squared`. -/
def Quat.length_squared (q : Quat) : ℝ := q.x * q.x + q.y * q.y + q.z * q.z + q.w * q.w

/-- glam `Quat::length`. -/
def Quat.length (q : Quat) : ℝ := Real.sqrt (Quat.length_squared q)

/-- glam `Quat::normalize`: `self * self.length().recip()`. -/
def Quat.normalize (q : Quat) : Quat := Quat.smul (Quat.length q)⁻¹ q

/-- glam `Quat::mul_quat`, the Hamilton product, in the exact operand shape
of the glam scalar implementation. -/
def Quat.mul_quat (p q : Quat) : Quat :=
  ⟨p.w * q.x + q.w * p.x + p.y * q.z - p.z * q.y,
   p.w * q.y + q.w * p.y + p.z * q.x - p.x * q.z,
   p.w * q.z + q.w * p.z + p.x * q.y - p.y * q.x,
   p.w * q.w - p.x * q.x - p.y * q.y - p.z * q.z⟩

/-- glam `Quat::mul_vec3` (scalar implementation):
`rhs * (w*w - b.dot(b)) + b * (rhs.dot(b) * 2) + b.cross(rhs) * (w * 2)`
where `b` is the vector part of the quaternion. -/
def Quat.mul_vec3 (q : Quat) (v : Vec3) : Vec3 :=
  let b : Vec3 := ⟨q.x, q.y, q.z⟩
  Vec3.add
    (Vec3.add (Vec3.smul (q.w * q.w - Vec3.dot b b) v) (Vec3.smul (Vec3.dot v b * 2) b))
    (Vec3.smul (q.w * 2) (Vec3.cross b v))

/-- glam `Quat::from_axis_angle`:
`(axis * sin(angle * 0.5)).extend(cos(angle * 0.5))`. -/
def Quat.from_axis_angle (axis : Vec3) (angle : ℝ) : Quat :=
  ⟨axis.x * Real.sin (angle * 0.5), axis.y * Real.sin (angle * 0.5),
   axis.z * Real.sin (angle * 0.5), Real.cos (angle * 0.5)⟩

/-- glam `Quat::from_rotation_z`: `(0, 0, sin(angle * 0.5), cos(angle * 0.5))`. -/
def Quat.from_rotation_z (angle : ℝ) : Quat :=
  ⟨0, 0, Real.sin (angle * 0.5), Real.cos (angle * 0.5)⟩

/-- glam `Quat::is_near_identity`:
`acos_approx(self.w.abs()) * 2.0 < 0.002_847_144_6`. -/
def Quat.is_near_identity (q : Quat) : Prop :=
  Real.arccos |q.w| * 2 < 0.0028471446

/-- Sum of a list of vectors, as the Rust `Iterator::sum::<Vec3>()`:
a fold of `+` starting from `Vec3::ZERO`. -/
def sumV (l : List Vec3) : Vec3 := l.foldl Vec3.add Vec3.zero

/-- Sum of a list of quaternions, as the Rust `Iterator::sum::<Quat>()`:
a fold of `+` starting from `Quat::ZERO`. -/
def sumQ (l : List Quat) : Quat := l.foldl Quat.add Quat.ZERO

/-- `const BASE_DIRECTION: Vec3 = Vec3::new(0., 1., 0.);` -/
def BASE_DIRECTION : Vec3 := ⟨0, 1, 0⟩

/-- `const VELOCITY: f32 = 100.;` -/
def VELOCITY : ℝ := 100

/-- `const NEIGHBOR_DISTANCE_SQUARED: f32 = 50.0 * 50.0;` -/
def NEIGHBOR_DISTANCE_SQUARED : ℝ := 50.0 * 50.0

/-- `const NEIGHBOR_ANGLE: f32 = 2.79;` -/
def NEIGHBOR_ANGLE : ℝ := 2.79

/-- `struct Boid { position: Vec3, rotation: Quat }` -/
@[ext] structure Boid where
  position : Vec3
  rotation : Quat

/-- The quaternion computed by the first three lines of `diff_as_quat`,
before the NaN / near-identity guard:
`Quat::from_axis_angle(from.cross(to).normalize(), from.angle_between(to)).normalize()`. -/
def rawDiffQuat (u v : Vec3) : Quat :=
  Quat.normalize (Quat.from_axis_angle (Vec3.normalize (Vec3.cross u v)) (Vec3.angle_between u v))

/-- Models `q.is_nan()` for the quaternion built in `diff_as_quat`: with
finite inputs, the computed quaternion has a NaN component exactly when the
rotation axis `from.cross(to)` is the zero vector (normalizing the zero
axis divides by zero, giving NaN components; this also covers a zero `from`
or `to`, whose cross product is zero and whose `angle_between` is NaN). -/
def diffDegenerate (u v : Vec3) : Prop := Vec3.cross u v = Vec3.zero

/-- `fn diff_as_quat(from: Vec3, to: Vec3) -> Quat`.  The call to
`rand::random::<bool>()` in the degenerate branch is modelled by reading
coin `g k` and advancing the counter; the non-degenerate branch draws no
random value, exactly as in the source. -/
def diff_as_quat (g : ℕ → Bool) (k : ℕ) (u v : Vec3) : Quat × ℕ :=
  let q := rawDiffQuat u v
  if diffDegenerate u v ∨ Quat.is_near_identity q then
    ((if g k then Quat.IDENTITY else Quat.from_rotation_z Real.pi), k + 1)
  else
    (q, k)

/-- Models the f32 comparison `u.angle_between(v) < theta` as it appears in
`is_neighbor`.  In glam, `angle_between` returns NaN exactly when one of the
arguments is the zero vector (the quotient is 0/0), and every comparison
with NaN is false; for nonzero arguments it returns the real angle. -/
def angleLt (u v : Vec3) (theta : ℝ) : Prop :=
  u ≠ Vec3.zero ∧ v ≠ Vec3.zero ∧ Vec3.angle_between u v < theta

/-- `fn is_neighbor(me: &Boid, other: &Boid) -> bool`, with the early
`return false` on the distance test rendered as the guard of an `if`. -/
def is_neighbor (me other : Boid) : Prop :=
  let direction := Vec3.sub other.position me.position
  if NEIGHBOR_DISTANCE_SQUARED ≤ Vec3.length_squared direction then False
  else angleLt (Quat.mul_vec3 me.rotation BASE_DIRECTION) direction NEIGHBOR_ANGLE

/-- The neighbor collection loop of `update_direction_of_boids`: every boid
of the store (including `me` itself, which fails `is_neighbor`) is tested. -/
def neighbors (bs : List Boid) (me : Boid) : List Boid :=
  bs.filter (fun b => decide (is_neighbor me b))

/-- One summand of the avoidance vector: contributes
`(me - other) / max(|me - other|^2, 1)` when `|me - other|^2` is below
`NEIGHBOR_DISTANCE_SQUARED / 4`, and zero otherwise. -/
def avoidContrib (p q : Vec3) : Vec3 :=
  if Vec3.length_squared (Vec3.sub p q) < NEIGHBOR_DISTANCE_SQUARED / 4 then
    Vec3.divScalar (Vec3.sub p q) (max (Vec3.length_squared (Vec3.sub p q)) 1)
  else
    Vec3.zero

/-- The body of the first (compute) loop of `update_direction_of_boids` for
one boid: the pair `(R_target, R_align)` pushed into `updates`, together
with the advanced coin counter.  `bs` is the pre-step snapshot. -/
def computeUpdate (g : ℕ → Bool) (bs : List Boid) (b : Boid) (k : ℕ) : (Quat × Quat) × ℕ :=
  let ns := neighbors bs b
  if ns = [] then ((Quat.IDENTITY, b.rotation), k)
  else
    let vel := Quat.mul_vec3 b.rotation BASE_DIRECTION
    let avg_pos := Vec3.divScalar (sumV (ns.map Boid.position)) (ns.length : ℝ)
    let conv := diff_as_quat g k vel (Vec3.sub avg_pos b.position)
    let avoid_vec := sumV (ns.map (fun n => avoidContrib b.position n.position))
    let avoid := diff_as_quat g conv.2 vel avoid_vec
    let avg_rot := Quat.divScalar (sumQ (ns.map Boid.rotation)) (ns.length : ℝ)
    ((Quat.normalize (Quat.add (Quat.smul 10 conv.1) (Quat.smul 11 avoid.1)), avg_rot), avoid.2)

/-- The first loop of `update_direction_of_boids`: build the `updates` list
over the snapshot `bs`, threading the coin counter. -/
def computeUpdates (g : ℕ → Bool) (bs : List Boid) : List Boid → ℕ → List (Quat × Quat) × ℕ
  | [], k => ([], k)
  | b :: rest, k =>
    let u := computeUpdate g bs b k
    let us := computeUpdates g bs rest u.2
    (u.1 :: us.1, us.2)

/-- The body of the second (commit) loop of `update_direction_of_boids`:
`boid.rotation *= upd / 100.;`
`boid.rotation = (boid.rotation * 0.95 + avg_rot * 0.05).normalize();` -/
def commitUpdate (b : Boid) (u : Quat × Quat) : Boid :=
  let r1 := Quat.mul_quat b.rotation (Quat.divScalar u.1 100)
  { b with rotation := Quat.normalize (Quat.add (Quat.smul 0.95 r1) (Quat.smul 0.05 u.2)) }

/-- `fn update_direction_of_boids`: first compute the whole `updates` list
from the snapshot, then commit it with `zip`, exactly as the source. -/
def update_direction_of_boids (g : ℕ → Bool) (bs : List Boid) (k : ℕ) : List Boid × ℕ :=
  let us := computeUpdates g bs bs k
  (List.zipWith commitUpdate bs us.1, us.2)

/-- Generic compute-all pass: map a stateful per-agent function over the
agent list. -/
def mapState (f : Boid → ℕ → (Quat × Quat) × ℕ) : List Boid → ℕ → List (Quat × Quat) × ℕ
  | [], k => ([], k)
  | b :: rest, k =>
    let r := f b k
    let rs := mapState f rest r.2
    (r.1 :: rs.1, rs.2)

/-- Modelled from the spec: the double-buffered reference step — every
per-agent update `(R_target, R_align)` is computed as a function of the
pre-step snapshot `bs` only, and only after all updates exist is every
orientation committed. -/
def specTwoPhaseStep (g : ℕ → Bool) (bs : List Boid) (k : ℕ) : List Boid × ℕ :=
  let us := mapState (fun b k2 => computeUpdate g bs b k2) bs k
  (List.zipWith commitUpdate bs us.1, us.2)

/-- The body of the `move_boids` loop for one boid: integrate x and y,
flip the orientation by 180 degrees about z when out of bounds, then damp
each out-of-bounds axis.  `dt` is `time.delta_seconds()`. -/
def move_boid (dt : ℝ) (b : Boid) : Boid :=
  let velocity := Quat.mul_vec3 b.rotation (Vec3.smul VELOCITY BASE_DIRECTION)
  let x1 := b.position.x + velocity.x * dt
  let y1 := b.position.y + velocity.y * dt
  let r1 :=
    if 500 < |x1| ∨ 250 < |y1| then
      Quat.mul_quat b.rotation (Quat.from_rotation_z Real.pi)
    else b.rotation
  let y2 := if 250 < |y1| then y1 * 0.9 else y1
  let x2 := if 500 < |x1| then x1 * 0.9 else x1
  { position := ⟨x2, y2, b.position.z⟩, rotation := r1 }

/-- `fn move_boids`: the per-boid motion step applied to every agent. -/
def move_boids (dt : ℝ) (bs : List Boid) : List Boid := bs.map (move_boid dt)

/-- One simulation tick: the Update schedule runs the steering step and
then the motion step. -/
def step (g : ℕ → Bool) (dt : ℝ) (bs : List Boid) (k : ℕ) : List Boid × ℕ :=
  let u := update_direction_of_boids g bs k
  (move_boids dt u.1, u.2)

/-- One iteration of the `add_boids` startup loop: four draws of
`rng.gen::<f32>()` (modelled by the stream `r` at indices `j..j+3`),
position `(pos_x, pos_y, 0)`, and the initial orientation from
`diff_as_quat(BASE_DIRECTION, (vel_x, vel_y, 0))`. -/
def add_boid (g : ℕ → Bool) (r : ℕ → ℝ) (j k : ℕ) : Boid × ℕ :=
  let pos_x := 500 - r j * 1000
  let pos_y := 250 - r (j + 1) * 500
  let vel_x := 1 - r (j + 2) * 2
  let vel_y := 1 - r (j + 3) * 2
  let rot := diff_as_quat g k BASE_DIRECTION ⟨vel_x, vel_y, 0⟩
  (⟨⟨pos_x, pos_y, 0⟩, rot.1⟩, rot.2)

/-- `fn add_boids`, generalized over the number of boids created (the
source creates 300): create the agents in index order, consuming the
random streams left to right. -/
def add_boids (g : ℕ → Bool) (r : ℕ → ℝ) : ℕ → ℕ → ℕ → List Boid × ℕ
  | 0, _, k => ([], k)
  | n + 1, j, k =>
    let b := add_boid g r j k
    let bs := add_boids g r n (j + 4) b.2
    (b.1 :: bs.1, bs.2)

/-- Seeded startup (the spec calls it initialize): `add_boids` run from the start of both random
streams. -/
def initBoids (g : ℕ → Bool) (r : ℕ → ℝ) (n : ℕ) : List Boid × ℕ :=
  add_boids g r n 0 0

/-- Run the given list of ticks, collecting the agent states after every
tick. -/
def runSimAux (g : ℕ → Bool) : List ℝ → List Boid → ℕ → List (List Boid)
  | [], _, _ => []
  | dt :: rest, bs, k =>
    let s := step g dt bs k
    s.1 :: runSimAux g rest s.1 s.2

/-- The whole embedded simulation: seeded initialization followed by one
`step` per entry of `dts`, yielding the snapshot after every tick. -/
def runSim (g : ℕ → Bool) (r : ℕ → ℝ) (n : ℕ) (dts : List ℝ) : List (List Boid) :=
  let init := initBoids g r n
  runSimAux g dts init.1 init.2

/-- A constant coin stream, used for concrete instantiations. -/
def coinT : ℕ → Bool := fun _ => true

/-- A constant real stream, used for concrete instantiations. -/
def randZ : ℕ → ℝ := fun _ => 0

/-- A unit quaternion whose forward vector is `(1, 0, 0)`: the rotation by
-90 degrees about z. -/
def qEast : Quat := ⟨0, 0, -(Real.sqrt 2 / 2), Real.sqrt 2 / 2⟩

/-- Witness boid at the origin, oriented along the base direction. -/
def nb0 : Boid := ⟨⟨0, 0, 0⟩, Quat.IDENTITY⟩

/-- Witness boid 10 units ahead of `nb0`, same orientation. -/
def nb1 : Boid := ⟨⟨0, 10, 0⟩, Quat.IDENTITY⟩

/-- Witness boid 20 units ahead of `nb0`, rotated 180 degrees about z. -/
def nb2 : Boid := ⟨⟨0, 20, 0⟩, ⟨0, 0, 1, 0⟩⟩

/-- Two-boid witness store. -/
def bsW2 : List Boid := [nb0, nb1]

/-- Three-boid witness store with non-parallel orientations. -/
def bsW3 : List Boid := [nb0, nb1, nb2]

end Boids

end

namespace Boids

lemma sub_self_vec (p : Vec3) : Vec3.sub p p = Vec3.zero := by
  simp [Vec3.sub, Vec3.zero]

lemma is_neighbor_self_false (b : Boid) : ¬ is_neighbor b b := by
  intro h
  simp only [is_neighbor, sub_self_vec] at h
  rw [if_neg] at h
  · exact h.2.1 rfl
  · norm_num [Vec3.length_squared, Vec3.dot, Vec3.zero, NEIGHBOR_DISTANCE_SQUARED]

/-- C1: `is_neighbor me other` holds exactly when the squared distance
`|p_other - p_me|^2` is strictly below `D^2 = 2500` and the (NaN-guarded)
angle between `me`'s forward vector and `p_other - p_me` is strictly below
`2.79`; moreover no agent is a neighbor of itself. -/
theorem C1_is_neighbor_characterization (me other : Boid) :
    (is_neighbor me other ↔
      Vec3.length_squared (Vec3.sub other.position me.position) < 2500 ∧
      angleLt (Quat.mul_vec3 me.rotation BASE_DIRECTION)
        (Vec3.sub other.position me.position) 2.79) ∧
    ¬ is_neighbor me me := by
  refine ⟨?_, is_neighbor_self_false me⟩
  constructor
  · intro h
    simp only [is_neighbor] at h
    by_cases hc :
        NEIGHBOR_DISTANCE_SQUARED ≤ Vec3.length_squared (Vec3.sub other.position me.position)
    · rw [if_pos hc] at h
      exact h.elim
    · rw [if_neg hc] at h
      push_neg at hc
      refine ⟨?_, h⟩
      norm_num [NEIGHBOR_DISTANCE_SQUARED] at hc
      exact hc
  · rintro ⟨h1, h2⟩
    simp only [is_neighbor]
    rw [if_neg]
    · exact h2
    · norm_num [NEIGHBOR_DISTANCE_SQUARED]
      linarith

lemma computeUpdates_eq_mapState (g : ℕ → Bool) (bs : List Boid) :
    ∀ (l : List Boid) (k : ℕ),
      computeUpdates g bs l k = mapState (fun b k2 => computeUpdate g bs b k2) l k := by
  intro l
  induction l with
  | nil => intro k; rfl
  | cons b rest ih => intro k; simp [computeUpdates, mapState, ih]

/-- C3: the steering step is double-buffered: it equals the two-phase
function that first computes every per-agent update `(R_target, R_align)`
from the pre-step snapshot only and then commits all orientations. -/
theorem C3_step_is_double_buffered (g : ℕ → Bool) (bs : List Boid) (k : ℕ) :
    update_direction_of_boids g bs k = specTwoPhaseStep g bs k := by
  simp [update_direction_of_boids, specTwoPhaseStep, computeUpdates_eq_mapState]

/-- C8: whenever the quaternion built inside `diff_as_quat` is degenerate
(NaN components, i.e. a zero rotation axis) or near-identity, the function
returns the identity or the 180-degree rotation about z; and every
avoidance contribution divides by `max(|d|^2, 1) >= 1`, so it is
well-defined even at zero separation, where it is zero. -/
theorem C8_degenerate_fallback_and_avoidance_floor (g : ℕ → Bool) (k : ℕ) (u v : Vec3) :
    (diffDegenerate u v ∨ Quat.is_near_identity (rawDiffQuat u v) →
        (diff_as_quat g k u v).1 = Quat.IDENTITY ∨
        (diff_as_quat g k u v).1 = Quat.from_rotation_z Real.pi) ∧
    ∀ p q : Vec3,
      (1 : ℝ) ≤ max (Vec3.length_squared (Vec3.sub p q)) 1 ∧
        avoidContrib p p = Vec3.zero := by
  constructor
  · intro hdeg
    simp only [diff_as_quat]
    rw [if_pos hdeg]
    cases hg : g k with
    | false => right; simp [hg]
    | true => left; simp [hg]
  · intro p q
    refine ⟨le_max_right _ _, ?_⟩
    simp only [avoidContrib, sub_self_vec]
    rw [if_pos]
    · simp [Vec3.divScalar, Vec3.zero]
    · norm_num [Vec3.length_squared, Vec3.dot, Vec3.zero, NEIGHBOR_DISTANCE_SQUARED]

/-- Witness for C8 at a concrete degenerate input: `from = to = (0,1,0)`
has a zero cross product, and a coincident pair contributes zero avoidance. -/
theorem C8_witness :
    ((diff_as_quat coinT 0 BASE_DIRECTION BASE_DIRECTION).1 = Quat.IDENTITY ∨
      (diff_as_quat coinT 0 BASE_DIRECTION BASE_DIRECTION).1 = Quat.from_rotation_z Real.pi) ∧
    avoidContrib ⟨1, 2, 0⟩ ⟨1, 2, 0⟩ = Vec3.zero := by
  have h := C8_degenerate_fallback_and_avoidance_floor coinT 0 BASE_DIRECTION BASE_DIRECTION
  refine ⟨h.1 (Or.inl ?_), (h.2 ⟨1, 2, 0⟩ ⟨1, 2, 0⟩).2⟩
  show Vec3.cross BASE_DIRECTION BASE_DIRECTION = Vec3.zero
  simp [Vec3.cross, BASE_DIRECTION, Vec3.zero]

/-- C9: determinism under a fixed random source: two runs of the embedded
simulation with the same coin stream, the same f32 stream, the same agent
count and the same dt sequence produce equal snapshots after every tick. -/
theorem C9_determinism (g1 g2 : ℕ → Bool) (r1 r2 : ℕ → ℝ) (n1 n2 : ℕ)
    (dts1 dts2 : List ℝ) (hg : g1 = g2) (hr : r1 = r2) (hn : n1 = n2) (hd : dts1 = dts2) :
    runSim g1 r1 n1 dts1 = runSim g2 r2 n2 dts2 := by
  subst hg; subst hr; subst hn; subst hd; rfl

/-- Witness for C9: a concrete pair of identically seeded two-tick runs. -/
theorem C9_witness :
    runSim coinT randZ 2 [1 / 60, 1 / 60] = runSim coinT randZ 2 [1 / 60, 1 / 60] :=
  C9_determinism coinT coinT randZ randZ 2 2 [1 / 60, 1 / 60] [1 / 60, 1 / 60]
    rfl rfl rfl rfl

end Boids

namespace Boids

lemma mul_vec3_IDENTITY (v : Vec3) : Quat.mul_vec3 Quat.IDENTITY v = v := by
  obtain ⟨a, b, c⟩ := v
  simp only [Quat.mul_vec3, Quat.IDENTITY, Vec3.dot, Vec3.cross, Vec3.smul, Vec3.add,
    Vec3.mk.injEq]
  refine ⟨by ring, by ring, by ring⟩

lemma mul_vec3_smul (q : Quat) (s : ℝ) (v : Vec3) :
    Quat.mul_vec3 q (Vec3.smul s v) = Vec3.smul s (Quat.mul_vec3 q v) := by
  simp only [Quat.mul_vec3, Vec3.smul, Vec3.dot, Vec3.cross, Vec3.add, Vec3.mk.injEq]
  refine ⟨by ring, by ring, by ring⟩

/-- C5: whenever the integrated position of an agent leaves the arena, the
motion step composes its orientation on the right with the 180-degree
rotation about z, and then damps by 0.9 exactly those axes of the
integrated position that are out of bounds. -/
theorem C5_boundary_flip_then_damp (dt : ℝ) (b : Boid)
    (h : 500 < |b.position.x +
            (Quat.mul_vec3 b.rotation (Vec3.smul VELOCITY BASE_DIRECTION)).x * dt| ∨
         250 < |b.position.y +
            (Quat.mul_vec3 b.rotation (Vec3.smul VELOCITY BASE_DIRECTION)).y * dt|) :
    (move_boid dt b).rotation =
      Quat.mul_quat b.rotation (Quat.from_rotation_z Real.pi) ∧
    (move_boid dt b).position.y =
      (if 250 < |b.position.y +
            (Quat.mul_vec3 b.rotation (Vec3.smul VELOCITY BASE_DIRECTION)).y * dt|
       then (b.position.y +
            (Quat.mul_vec3 b.rotation (Vec3.smul VELOCITY BASE_DIRECTION)).y * dt) * 0.9
       else b.position.y +
            (Quat.mul_vec3 b.rotation (Vec3.smul VELOCITY BASE_DIRECTION)).y * dt) ∧
    (move_boid dt b).position.x =
      (if 500 < |b.position.x +
            (Quat.mul_vec3 b.rotation (Vec3.smul VELOCITY BASE_DIRECTION)).x * dt|
       then (b.position.x +
            (Quat.mul_vec3 b.rotation (Vec3.smul VELOCITY BASE_DIRECTION)).x * dt) * 0.9
       else b.position.x +
            (Quat.mul_vec3 b.rotation (Vec3.smul VELOCITY BASE_DIRECTION)).x * dt) := by
  refine ⟨?_, rfl, rfl⟩
  simp only [move_boid]
  rw [if_pos h]

lemma from_rotation_z_pi : Quat.from_rotation_z Real.pi = ⟨0, 0, 1, 0⟩ := by
  have hh : Real.pi * (0.5 : ℝ) = Real.pi / 2 := by norm_num; ring
  simp only [Quat.from_rotation_z, hh, Real.sin_pi_div_two, Real.cos_pi_div_two]

lemma mul_vec3_qEast_base : Quat.mul_vec3 qEast BASE_DIRECTION = ⟨1, 0, 0⟩ := by
  simp only [Quat.mul_vec3, qEast, BASE_DIRECTION, Vec3.dot, Vec3.cross, Vec3.smul,
    Vec3.add, Vec3.mk.injEq]
  refine ⟨?_, by ring, by ring⟩
  have h2 : Real.sqrt 2 * Real.sqrt 2 = 2 := Real.mul_self_sqrt (by norm_num)
  nlinarith [h2]

/-- Witness for C5: an agent at (600, 0) whose forward vector is (1, 0),
stepped with dt = 1/60: the x coordinate ends at (600 + 100 * (1/60)) * 0.9
and the orientation is composed with the 180-degree z-rotation, so the
forward vector ends at (-1, 0). -/
theorem C5_witness :
    Quat.mul_vec3 qEast BASE_DIRECTION = ⟨1, 0, 0⟩ ∧
    (move_boid (1 / 60) ⟨⟨600, 0, 0⟩, qEast⟩).rotation =
      Quat.mul_quat qEast (Quat.from_rotation_z Real.pi) ∧
    (move_boid (1 / 60) ⟨⟨600, 0, 0⟩, qEast⟩).position.x = (600 + 100 * (1 / 60)) * 0.9 ∧
    Quat.mul_vec3 (move_boid (1 / 60) ⟨⟨600, 0, 0⟩, qEast⟩).rotation BASE_DIRECTION
      = ⟨-1, 0, 0⟩ := by
  have h2 : Real.sqrt 2 * Real.sqrt 2 = 2 := Real.mul_self_sqrt (by norm_num)
  have hvel : Quat.mul_vec3 qEast (Vec3.smul VELOCITY BASE_DIRECTION) = ⟨100, 0, 0⟩ := by
    rw [mul_vec3_smul, mul_vec3_qEast_base]
    simp only [Vec3.smul, VELOCITY, Vec3.mk.injEq]
    norm_num
  have hcond : 500 < |(600 : ℝ) +
      (Quat.mul_vec3 qEast (Vec3.smul VELOCITY BASE_DIRECTION)).x * (1 / 60)| := by
    rw [hvel]
    rw [show ((⟨100, 0, 0⟩ : Vec3).x : ℝ) = 100 from rfl]
    rw [abs_of_nonneg (by norm_num)]
    norm_num
  have hmain := C5_boundary_flip_then_damp (1 / 60) ⟨⟨600, 0, 0⟩, qEast⟩ (Or.inl hcond)
  have hflip : Quat.mul_quat qEast (Quat.from_rotation_z Real.pi)
      = ⟨0, 0, Real.sqrt 2 / 2, Real.sqrt 2 / 2⟩ := by
    rw [from_rotation_z_pi]
    simp only [Quat.mul_quat, qEast, Quat.mk.injEq]
    refine ⟨by ring, by ring, by ring, by ring⟩
  refine ⟨mul_vec3_qEast_base, hmain.1, ?_, ?_⟩
  · rw [hmain.2.2, if_pos hcond, hvel]
  · rw [hmain.1, hflip]
    simp only [Quat.mul_vec3, BASE_DIRECTION, Vec3.dot, Vec3.cross, Vec3.smul, Vec3.add,
      Vec3.mk.injEq]
    refine ⟨?_, by ring, by ring⟩
    nlinarith [h2]

/-- Counterexample to C6: an agent inside the arena at (0, 250) with unit
orientation along (0, 1), given a 1-second tick, ends the motion step at
y = 315, strictly outside the claimed bound |y| <= 250. -/
theorem C6_counterexample :
    250 < |(move_boid 1 ⟨⟨0, 250, 0⟩, Quat.IDENTITY⟩).position.y| := by
  have hv : Quat.mul_vec3 Quat.IDENTITY (Vec3.smul VELOCITY BASE_DIRECTION)
      = ⟨0, 100, 0⟩ := by
    rw [mul_vec3_IDENTITY]
    simp only [Vec3.smul, VELOCITY, BASE_DIRECTION, Vec3.mk.injEq]
    norm_num
  simp only [move_boid, hv]
  norm_num

lemma damp_bound (c bound vmax v dt : ℝ) (hb : |c| ≤ bound) (hv : |v| ≤ vmax)
    (hdt0 : 0 ≤ dt) (hdtv : vmax * dt ≤ bound / 9) :
    |if bound < |c + v * dt| then (c + v * dt) * 0.9 else c + v * dt| ≤ bound := by
  have habs : |c + v * dt| ≤ bound + bound / 9 := by
    have h1 : |v * dt| = |v| * dt := by rw [abs_mul, abs_of_nonneg hdt0]
    have h2 : |v| * dt ≤ vmax * dt := by
      have := abs_nonneg v
      nlinarith
    calc |c + v * dt| ≤ |c| + |v * dt| := abs_add _ _
      _ ≤ bound + vmax * dt := by rw [h1]; linarith
      _ ≤ bound + bound / 9 := by linarith
  by_cases hc : bound < |c + v * dt|
  · rw [if_pos hc]
    have h3 : |(c + v * dt) * 0.9| = |c + v * dt| * 0.9 := by
      rw [abs_mul]
      norm_num
    rw [h3]
    nlinarith
  · rw [if_neg hc]
    push_neg at hc
    exact hc

/-- C6 amended: provided each tick lasts at most 1/30 seconds and each
agent starts the motion step inside the arena with velocity components
bounded by the nominal speed 100 (as holds for unit orientations), the
motion step keeps every agent inside |x| <= 500 and |y| <= 250. -/
theorem C6_amended_bounds_preserved (dt : ℝ) (bs : List Boid)
    (hdt0 : 0 ≤ dt) (hdt : dt ≤ 1 / 30)
    (h : ∀ b ∈ bs,
      |b.position.x| ≤ 500 ∧ |b.position.y| ≤ 250 ∧
      |(Quat.mul_vec3 b.rotation (Vec3.smul VELOCITY BASE_DIRECTION)).x| ≤ 100 ∧
      |(Quat.mul_vec3 b.rotation (Vec3.smul VELOCITY BASE_DIRECTION)).y| ≤ 100) :
    ∀ b2 ∈ move_boids dt bs, |b2.position.x| ≤ 500 ∧ |b2.position.y| ≤ 250 := by
  intro b2 hb2
  simp only [move_boids, List.mem_map] at hb2
  obtain ⟨b, hb, rfl⟩ := hb2
  obtain ⟨hx, hy, hvx, hvy⟩ := h b hb
  constructor
  · simp only [move_boid]
    exact damp_bound _ 500 100 _ dt hx hvx hdt0 (by nlinarith)
  · simp only [move_boid]
    exact damp_bound _ 250 100 _ dt hy hvy hdt0 (by nlinarith)

/-- Witness for the amended C6: a concrete in-bounds agent with unit
orientation stepped by dt = 1/60 stays inside the arena. -/
theorem C6_witness :
    |(move_boid (1 / 60) (⟨⟨0, 0, 0⟩, Quat.IDENTITY⟩ : Boid)).position.x| ≤ 500 ∧
    |(move_boid (1 / 60) (⟨⟨0, 0, 0⟩, Quat.IDENTITY⟩ : Boid)).position.y| ≤ 250 := by
  have hmem : move_boid (1 / 60) (⟨⟨0, 0, 0⟩, Quat.IDENTITY⟩ : Boid)
      ∈ move_boids (1 / 60) [(⟨⟨0, 0, 0⟩, Quat.IDENTITY⟩ : Boid)] := by
    simp [move_boids]
  refine C6_amended_bounds_preserved (1 / 60) _ (by norm_num) (by norm_num) ?_ _ hmem
  intro b hb
  simp only [List.mem_singleton] at hb
  subst hb
  rw [show (⟨⟨0, 0, 0⟩, Quat.IDENTITY⟩ : Boid).rotation = Quat.IDENTITY from rfl,
    mul_vec3_IDENTITY]
  simp only [Vec3.smul, VELOCITY, BASE_DIRECTION]
  norm_num

end Boids

namespace Boids

lemma mul_quat_scalarQuat (q : Quat) (s : ℝ) :
    Quat.mul_quat q ⟨0, 0, 0, s⟩ = Quat.smul s q := by
  simp only [Quat.mul_quat, Quat.smul, Quat.mk.injEq]
  refine ⟨by ring, by ring, by ring, by ring⟩

lemma lengthSq_smul (s : ℝ) (q : Quat) :
    Quat.length_squared (Quat.smul s q) = s ^ 2 * Quat.length_squared q := by
  simp only [Quat.length_squared, Quat.smul]
  ring

lemma normalize_smul_of_unit (c : ℝ) (hc : 0 < c) (q : Quat)
    (hq : Quat.length_squared q = 1) : Quat.normalize (Quat.smul c q) = q := by
  have hl : Quat.length (Quat.smul c q) = c := by
    rw [Quat.length, lengthSq_smul, hq, mul_one, Real.sqrt_sq hc.le]
  simp only [Quat.normalize]
  rw [hl]
  obtain ⟨a, b, d, e⟩ := q
  simp only [Quat.smul, Quat.mk.injEq]
  refine ⟨?_, ?_, ?_, ?_⟩ <;> exact mul_inv_cancel_right₀ hc.ne' _

lemma commit_null (p : Vec3) (q : Quat) (hq : Quat.length_squared q = 1) :
    commitUpdate ⟨p, q⟩ (Quat.IDENTITY, q) = ⟨p, q⟩ := by
  have hdiv : Quat.divScalar Quat.IDENTITY 100 = (⟨0, 0, 0, 1 / 100⟩ : Quat) := by
    simp only [Quat.divScalar, Quat.IDENTITY, Quat.mk.injEq]
    norm_num
  have hblend :
      Quat.add (Quat.smul 0.95 (Quat.mul_quat q ⟨0, 0, 0, 1 / 100⟩)) (Quat.smul 0.05 q)
        = Quat.smul (119 / 2000) q := by
    rw [mul_quat_scalarQuat]
    simp only [Quat.smul, Quat.add, Quat.mk.injEq]
    refine ⟨by ring, by ring, by ring, by ring⟩
  simp only [commitUpdate, hdiv, hblend]
  rw [normalize_smul_of_unit (119 / 2000) (by norm_num) q hq]

lemma neighbors_single (b : Boid) : neighbors [b] b = [] := by
  simp only [neighbors, List.filter, decide_eq_false (is_neighbor_self_false b)]

/-- C7: with a single (unit-orientation) agent whose integrated position
stays inside the arena, one full step leaves the orientation unchanged (the
neighbor set is empty, so the recorded update is the null update and the
two-stage commit preserves a unit quaternion) and advances the position by
exactly dt * 100 along the forward vector. -/
theorem C7_isolated_agent (g : ℕ → Bool) (k : ℕ) (dt : ℝ) (p : Vec3) (q : Quat)
    (hq : Quat.length_squared q = 1)
    (hx : |p.x + (Quat.mul_vec3 q (Vec3.smul VELOCITY BASE_DIRECTION)).x * dt| ≤ 500)
    (hy : |p.y + (Quat.mul_vec3 q (Vec3.smul VELOCITY BASE_DIRECTION)).y * dt| ≤ 250) :
    (step g dt [⟨p, q⟩] k).1 =
      [⟨⟨p.x + VELOCITY * dt * (Quat.mul_vec3 q BASE_DIRECTION).x,
         p.y + VELOCITY * dt * (Quat.mul_vec3 q BASE_DIRECTION).y,
         p.z⟩, q⟩] := by
  have hcu : computeUpdate g [(⟨p, q⟩ : Boid)] ⟨p, q⟩ k = ((Quat.IDENTITY, q), k) := by
    simp only [computeUpdate, neighbors_single]
    simp
  have hupd : update_direction_of_boids g [(⟨p, q⟩ : Boid)] k = ([⟨p, q⟩], k) := by
    simp only [update_direction_of_boids, computeUpdates, hcu, List.zipWith,
      commit_null p q hq]
  have hstep : (step g dt [(⟨p, q⟩ : Boid)] k).1
      = move_boids dt (update_direction_of_boids g [⟨p, q⟩] k).1 := rfl
  rw [hstep, hupd]
  show [move_boid dt ⟨p, q⟩] = _
  have hvel : Quat.mul_vec3 q (Vec3.smul VELOCITY BASE_DIRECTION)
      = Vec3.smul VELOCITY (Quat.mul_vec3 q BASE_DIRECTION) :=
    mul_vec3_smul q VELOCITY BASE_DIRECTION
  have hnor : ¬ (500 < |p.x + (Quat.mul_vec3 q (Vec3.smul VELOCITY BASE_DIRECTION)).x * dt| ∨
      250 < |p.y + (Quat.mul_vec3 q (Vec3.smul VELOCITY BASE_DIRECTION)).y * dt|) := by
    push_neg
    exact ⟨hx, hy⟩
  simp only [move_boid]
  rw [if_neg hnor, if_neg (not_lt.mpr hy), if_neg (not_lt.mpr hx), hvel]
  simp only [List.cons.injEq, and_true, Boid.mk.injEq, Vec3.mk.injEq, Vec3.smul,
    VELOCITY]
  exact ⟨by ring, by ring⟩

/-- Witness for C7: a single agent at the origin with the identity
orientation, stepped with dt = 1/60. -/
theorem C7_witness :
    (step coinT (1 / 60) [(⟨⟨0, 0, 0⟩, Quat.IDENTITY⟩ : Boid)] 0).1 =
      [(⟨⟨(⟨0, 0, 0⟩ : Vec3).x + VELOCITY * (1 / 60)
            * (Quat.mul_vec3 Quat.IDENTITY BASE_DIRECTION).x,
          (⟨0, 0, 0⟩ : Vec3).y + VELOCITY * (1 / 60)
            * (Quat.mul_vec3 Quat.IDENTITY BASE_DIRECTION).y,
          (⟨0, 0, 0⟩ : Vec3).z⟩, Quat.IDENTITY⟩ : Boid)] := by
  apply C7_isolated_agent coinT 0 (1 / 60) ⟨0, 0, 0⟩ Quat.IDENTITY
  · simp only [Quat.length_squared, Quat.IDENTITY]
    norm_num
  · rw [mul_vec3_IDENTITY]
    simp only [Vec3.smul, VELOCITY, BASE_DIRECTION]
    norm_num
  · rw [mul_vec3_IDENTITY]
    simp only [Vec3.smul, VELOCITY, BASE_DIRECTION]
    norm_num [abs_of_nonneg]

end Boids

namespace Boids

lemma is_neighbor_north (px py pz d : ℝ) (q : Quat) (hd : 0 < d) (hD : d * d < 2500) :
    is_neighbor ⟨⟨px, py, pz⟩, Quat.IDENTITY⟩ ⟨⟨px, py + d, pz⟩, q⟩ := by
  have hdir : Vec3.sub (⟨px, py + d, pz⟩ : Vec3) ⟨px, py, pz⟩ = ⟨0, d, 0⟩ := by
    simp only [Vec3.sub, Vec3.mk.injEq]
    refine ⟨by ring, by ring, by ring⟩
  simp only [is_neighbor, hdir]
  rw [if_neg]
  · rw [mul_vec3_IDENTITY]
    refine ⟨?_, ?_, ?_⟩
    · intro hc
      simp only [BASE_DIRECTION, Vec3.zero, Vec3.mk.injEq] at hc
      norm_num at hc
    · intro hc
      simp only [Vec3.zero, Vec3.mk.injEq] at hc
      exact hd.ne' hc.2.1
    · have hdot : Vec3.dot BASE_DIRECTION ⟨0, d, 0⟩ = d := by
        simp only [Vec3.dot, BASE_DIRECTION]
        ring
      have hlen : Vec3.length_squared BASE_DIRECTION
          * Vec3.length_squared (⟨0, d, 0⟩ : Vec3) = d ^ 2 := by
        simp only [Vec3.length_squared, Vec3.dot, BASE_DIRECTION]
        ring
      rw [Vec3.angle_between, hdot, hlen, Real.sqrt_sq hd.le, div_self hd.ne',
        Real.arccos_one]
      norm_num [NEIGHBOR_ANGLE]
  · simp only [Vec3.length_squared, Vec3.dot, NEIGHBOR_DISTANCE_SQUARED]
    push_neg
    nlinarith

lemma is_neighbor_nb0_nb1 : is_neighbor nb0 nb1 := by
  have h := is_neighbor_north 0 0 0 10 Quat.IDENTITY (by norm_num) (by norm_num)
  norm_num at h
  exact h

lemma is_neighbor_nb0_nb2 : is_neighbor nb0 nb2 := by
  have h := is_neighbor_north 0 0 0 20 ⟨0, 0, 1, 0⟩ (by norm_num) (by norm_num)
  norm_num at h
  exact h

lemma neighbors_bsW2 : neighbors bsW2 nb0 = [nb1] := by
  simp only [neighbors, bsW2, List.filter, decide_eq_false (is_neighbor_self_false nb0),
    decide_eq_true is_neighbor_nb0_nb1]

lemma neighbors_bsW3 : neighbors bsW3 nb0 = [nb1, nb2] := by
  simp only [neighbors, bsW3, List.filter, decide_eq_false (is_neighbor_self_false nb0),
    decide_eq_true is_neighbor_nb0_nb1, decide_eq_true is_neighbor_nb0_nb2]

/-- C2: for an agent with a non-empty neighbor set the recorded rotational
target is `normalize(R_conv * 10 + R_avoid * 11)` (with the two
`diff_as_quat` rotations computed from the snapshot, the convergence one
first), and the commit phase updates the orientation in exactly two stages:
a right-multiplication by `R_target / 100` (componentwise scalar division,
no renormalization before the multiply) followed by the renormalized blend
`normalize(orientation * 0.95 + R_align * 0.05)`. -/
theorem C2_target_and_two_stage_commit (g : ℕ → Bool) (bs : List Boid) (b : Boid) (k : ℕ)
    (h : neighbors bs b ≠ []) :
    (computeUpdate g bs b k).1.1 =
      Quat.normalize
        (Quat.add
          (Quat.smul 10
            (diff_as_quat g k (Quat.mul_vec3 b.rotation BASE_DIRECTION)
              (Vec3.sub
                (Vec3.divScalar (sumV ((neighbors bs b).map Boid.position))
                  ((neighbors bs b).length : ℝ))
                b.position)).1)
          (Quat.smul 11
            (diff_as_quat g
              (diff_as_quat g k (Quat.mul_vec3 b.rotation BASE_DIRECTION)
                (Vec3.sub
                  (Vec3.divScalar (sumV ((neighbors bs b).map Boid.position))
                    ((neighbors bs b).length : ℝ))
                  b.position)).2
              (Quat.mul_vec3 b.rotation BASE_DIRECTION)
              (sumV ((neighbors bs b).map (fun n => avoidContrib b.position n.position)))).1)) ∧
    ∀ (b2 : Boid) (u : Quat × Quat),
      commitUpdate b2 u =
        { b2 with
          rotation :=
            Quat.normalize
              (Quat.add
                (Quat.smul 0.95 (Quat.mul_quat b2.rotation (Quat.divScalar u.1 100)))
                (Quat.smul 0.05 u.2)) } := by
  constructor
  · simp only [computeUpdate]
    rw [if_neg h]
  · intro b2 u
    rfl

/-- Witness for C2: the two-boid configuration `bsW2` gives `nb0` the
non-empty neighbor list `[nb1]`, and the commit stage rewrites as claimed. -/
theorem C2_witness :
    commitUpdate nb0 (Quat.IDENTITY, Quat.IDENTITY) =
      { nb0 with
        rotation :=
          Quat.normalize
            (Quat.add
              (Quat.smul 0.95
                (Quat.mul_quat nb0.rotation (Quat.divScalar Quat.IDENTITY 100)))
              (Quat.smul 0.05 Quat.IDENTITY)) } :=
  (C2_target_and_two_stage_commit coinT bsW2 nb0 0
    (by rw [neighbors_bsW2]; simp)).2 nb0 (Quat.IDENTITY, Quat.IDENTITY)

/-- C4 amended: for an agent with a non-empty neighbor set, the recorded
alignment quaternion is the raw componentwise mean of the neighbors'
orientations (componentwise sum divided by the count), used in the blend
WITHOUT being renormalized first; only the blend result is renormalized. -/
theorem C4_amended_raw_mean_alignment (g : ℕ → Bool) (bs : List Boid) (b : Boid) (k : ℕ)
    (h : neighbors bs b ≠ []) :
    (computeUpdate g bs b k).1.2 =
      Quat.divScalar (sumQ ((neighbors bs b).map Boid.rotation))
        ((neighbors bs b).length : ℝ) ∧
    ∀ (b2 : Boid) (u : Quat × Quat),
      (commitUpdate b2 u).rotation =
        Quat.normalize
          (Quat.add (Quat.smul 0.95 (Quat.mul_quat b2.rotation (Quat.divScalar u.1 100)))
            (Quat.smul 0.05 u.2)) := by
  constructor
  · simp only [computeUpdate]
    rw [if_neg h]
  · intro b2 u
    rfl

/-- Witness for the amended C4: in the configuration `bsW2` the recorded
alignment value for `nb0` is the raw mean over its neighbor list. -/
theorem C4_witness :
    (computeUpdate coinT bsW2 nb0 0).1.2 =
      Quat.divScalar (sumQ ((neighbors bsW2 nb0).map Boid.rotation))
        ((neighbors bsW2 nb0).length : ℝ) :=
  (C4_amended_raw_mean_alignment coinT bsW2 nb0 0 (by rw [neighbors_bsW2]; simp)).1

/-- Counterexample to C4: in the three-boid configuration `bsW3` the agent
`nb0` has neighbors `[nb1, nb2]` whose orientation mean `(0,0,1/2,1/2)` is
not a unit quaternion, and the alignment value that the code records and
blends is exactly this raw mean, not its normalization. -/
theorem C4_counterexample :
    (computeUpdate coinT bsW3 nb0 0).1.2 ≠
      Quat.normalize
        (Quat.divScalar (sumQ ((neighbors bsW3 nb0).map Boid.rotation))
          ((neighbors bsW3 nb0).length : ℝ)) := by
  have havg : Quat.divScalar (sumQ ((neighbors bsW3 nb0).map Boid.rotation))
      ((neighbors bsW3 nb0).length : ℝ) = ⟨0, 0, 1 / 2, 1 / 2⟩ := by
    rw [neighbors_bsW3]
    simp only [List.map, sumQ, List.foldl, Quat.add, Quat.ZERO, nb1, nb2, Quat.IDENTITY,
      List.length, Quat.divScalar, Quat.mk.injEq]
    norm_num
  have hrec : (computeUpdate coinT bsW3 nb0 0).1.2 =
      Quat.divScalar (sumQ ((neighbors bsW3 nb0).map Boid.rotation))
        ((neighbors bsW3 nb0).length : ℝ) := by
    simp only [computeUpdate]
    rw [if_neg (by rw [neighbors_bsW3]; simp)]
  rw [hrec, havg]
  have hlen : Quat.length (⟨0, 0, 1 / 2, 1 / 2⟩ : Quat) = Real.sqrt (1 / 2) := by
    rw [Quat.length]
    norm_num [Quat.length_squared]
  intro hEq
  have hz := congrArg Quat.z hEq
  rw [Quat.normalize, hlen] at hz
  simp only [Quat.smul] at hz
  have hspos : 0 < Real.sqrt (1 / 2) := Real.sqrt_pos.mpr (by norm_num)
  field_simp at hz
  have h2 : Real.sqrt 2 * Real.sqrt 2 = 2 := Real.mul_self_sqrt (by norm_num)
  rw [← hz] at h2
  norm_num at h2

lemma move_boid_z (dt : ℝ) (b : Boid) : (move_boid dt b).position.z = b.position.z := rfl

lemma zipWith_commit_position (bs : List Boid) :
    ∀ (us : List (Quat × Quat)) (b2 : Boid), b2 ∈ List.zipWith commitUpdate bs us →
      ∃ b ∈ bs, b2.position = b.position := by
  induction bs with
  | nil =>
    intro us b2 h
    simp [List.zipWith] at h
  | cons a rest ih =>
    intro us b2 h
    cases us with
    | nil => simp [List.zipWith] at h
    | cons u urest =>
      simp only [List.zipWith] at h
      rcases List.mem_cons.mp h with h1 | h2
      · exact ⟨a, List.mem_cons_self _ _, by rw [h1]; rfl⟩
      · obtain ⟨b, hb, hbp⟩ := ih urest b2 h2
        exact ⟨b, List.mem_cons_of_mem _ hb, hbp⟩

lemma add_boids_z (g : ℕ → Bool) (r : ℕ → ℝ) :
    ∀ (n j k : ℕ), ∀ b ∈ (add_boids g r n j k).1, b.position.z = 0 := by
  intro n
  induction n with
  | zero =>
    intro j k b hb
    simp [add_boids] at hb
  | succ m ih =>
    intro j k b hb
    simp only [add_boids] at hb
    rcases List.mem_cons.mp hb with h1 | h2
    · rw [h1]
      rfl
    · exact ih _ _ b h2

/-- C10: every agent is created with `position.z = 0`, and one full tick
(steering commit followed by motion) never writes the z coordinate, so
`position.z = 0` holds after every tick even though positions are 3D. -/
theorem C10_planar_invariant (g : ℕ → Bool) (r : ℕ → ℝ) (n j k : ℕ)
    (dt : ℝ) (bs : List Boid) (k2 : ℕ)
    (h : ∀ b ∈ bs, b.position.z = 0) :
    (∀ b ∈ (add_boids g r n j k).1, b.position.z = 0) ∧
    (∀ b2 ∈ (step g dt bs k2).1, b2.position.z = 0) := by
  refine ⟨add_boids_z g r n j k, ?_⟩
  intro b2 hb2
  have hs : (step g dt bs k2).1 = move_boids dt (update_direction_of_boids g bs k2).1 := rfl
  rw [hs] at hb2
  simp only [move_boids, List.mem_map] at hb2
  obtain ⟨b3, hb3, rfl⟩ := hb2
  rw [move_boid_z]
  have h4 : (update_direction_of_boids g bs k2).1
      = List.zipWith commitUpdate bs (computeUpdates g bs bs k2).1 := rfl
  rw [h4] at hb3
  obtain ⟨b5, hb5, hp⟩ := zipWith_commit_position bs _ b3 hb3
  rw [hp]
  exact h b5 hb5

/-- Witness for C10: one created agent and one concrete tick of a planar
single-agent store. -/
theorem C10_witness :
    (∀ b ∈ (add_boids coinT randZ 1 0 0).1, b.position.z = 0) ∧
    (∀ b2 ∈ (step coinT (1 / 60) [(⟨⟨0, 0, 0⟩, Quat.IDENTITY⟩ : Boid)] 0).1,
      b2.position.z = 0) := by
  apply C10_planar_invariant
  intro b hb
  simp only [List.mem_singleton] at hb
  subst hb
  rfl

end Boids
